import Mathlib

/-!
Verification of the Agent-Shell runtime core against its specification.

Each definition below is a shallow embedding of a function of the Rust
sources (crates/agent-core, crates/agent-tools), translated statement by
statement; machine effects (filesystem, DNS, process spawning, the LLM
endpoint) are abstracted as explicit model parameters, and fallible Rust
code returns `Except`.  The theorems at the end of the file settle the
frozen claims C1 .. C10.
-/

namespace AgentShell

/-! ## Shared error taxonomy (agent-core/src/error.rs)

The `AgentError` enum, restricted to the variants the embedded code
constructs.  `display` renders the thiserror `#[error(...)]` format
strings. -/

inductive AgentError where
  | Config (msg : String)
  | Provider (msg : String)
  | ToolExecution (toolName message : String)
  | ToolNotFound (name : String)
  | Session (msg : String)
  | Sandbox (msg : String)
  | Schema (msg : String)
  | Cancelled
  deriving Repr, DecidableEq

def AgentError.display : AgentError → String
  | .Config m => "Configuration error: " ++ m
  | .Provider m => "Provider error: " ++ m
  | .ToolExecution n m => "Tool execution error: " ++ n ++ ": " ++ m
  | .ToolNotFound n => "Tool not found: " ++ n
  | .Session m => "Session error: " ++ m
  | .Sandbox m => "Sandbox error: " ++ m
  | .Schema m => "Schema build error: " ++ m
  | .Cancelled => "Cancelled by user"

/-! ## File operations: path confinement (agent-tools/src/file_ops.rs)

A filesystem path is modelled as an absoluteness flag plus the list of
its normal components; `Fs` abstracts the host filesystem operations
`validate_path` consults (`Path::exists` and `Path::canonicalize`, the
latter fallible with the io-error text). -/

structure RPath where
  absolute : Bool
  comps : List String
  deriving Repr, DecidableEq

/-- `Path::join`: an absolute argument replaces the base. -/
def RPath.join (base p : RPath) : RPath :=
  if p.absolute then p else { absolute := base.absolute, comps := base.comps ++ p.comps }

/-- `Path::display`, for error messages. -/
def RPath.display (p : RPath) : String :=
  (if p.absolute then "/" else "") ++ String.intercalate "/" p.comps

/-- `canonical.starts_with(&canon_root)`: component-wise prefix. -/
def RPath.startsWith (p base : RPath) : Bool :=
  p.absolute == base.absolute && base.comps.isPrefixOf p.comps

structure Fs where
  pathExists : RPath → Bool
  canonicalize : RPath → Except String RPath

/-- The walk-up loop of `validate_path` (file_ops.rs lines 36-49): strip
the last component while the path does not exist, accumulating the
stripped tail.  The Rust code pushes the component names and reverses at
the end; prepending to the accumulator builds the same final order. -/
def walkUp (fs : Fs) (p : RPath) (tail : List String) : RPath × List String :=
  if fs.pathExists p then (p, tail)
  else
    match h : p.comps.getLast? with
    | none => (p, tail)
    | some name => walkUp fs { p with comps := p.comps.dropLast } (name :: tail)
termination_by p.comps.length
decreasing_by
  have hne : p.comps ≠ [] := by
    intro hnil
    rw [hnil] at h
    simp at h
  have hlen : 0 < p.comps.length := List.length_pos.mpr hne
  simp only [List.length_dropLast]
  omega

/-- Lines 19-60 of `validate_path`: make the raw path absolute against
the current directory, then canonicalize it, walking up to the nearest
existing ancestor when the target does not exist and re-appending the
stripped tail. -/
def resolveCanonical (fs : Fs) (cwd raw : RPath) : Except AgentError RPath :=
  let abs := if raw.absolute then raw else cwd.join raw
  if fs.pathExists abs then
    match fs.canonicalize abs with
    | .ok c => .ok c
    | .error e =>
        .error (.ToolExecution "file_ops" ("Failed to canonicalize path: " ++ e))
  else
    let (existing, tail) := walkUp fs abs []
    match fs.canonicalize existing with
    | .ok c => .ok { c with comps := c.comps ++ tail }
    | .error e =>
        .error (.ToolExecution "file_ops" ("Failed to canonicalize path: " ++ e))

/-- `validate_path(raw, workspace_root)` (file_ops.rs lines 10-79). -/
def validatePath (fs : Fs) (cwd : RPath) (raw : RPath) (workspaceRoot : Option RPath) :
    Except AgentError RPath :=
  match workspaceRoot with
  | none => .ok raw
  | some root =>
    match resolveCanonical fs cwd raw with
    | .error e => .error e
    | .ok canonical =>
      match fs.canonicalize root with
      | .error e =>
          .error (.ToolExecution "file_ops" ("Failed to canonicalize workspace_root: " ++ e))
      | .ok canonRoot =>
        if ¬ canonical.startsWith canonRoot then
          .error (.ToolExecution "file_ops"
            ("Path '" ++ canonical.display ++ "' is outside the workspace root '"
              ++ canonRoot.display ++ "'"))
        else
          .ok canonical

/-- Each of `file_read`, `file_write` and `file_list` runs
`validate_path` first and propagates its error with `?` (file_ops.rs
lines 131, 209, 301); the filesystem is touched only when validation
returned `Ok`. -/
def pathConfinedToolOpensTarget (fs : Fs) (cwd raw : RPath) (workspaceRoot : Option RPath) :
    Bool :=
  (validatePath fs cwd raw workspaceRoot).isOk

/-! ### file_read line-range selection (file_ops.rs lines 141-154) -/

/-- Split a character sequence at every newline: `n` newlines give
`n + 1` parts. -/
def splitNewlines : List Char → List (List Char)
  | [] => [[]]
  | c :: rest =>
    if c = '\n' then [] :: splitNewlines rest
    else
      match splitNewlines rest with
      | [] => [[c]]
      | l :: ls => (c :: l) :: ls

/-- Strip one trailing carriage return from every part that was followed
by a newline — every part but the final one. -/
def stripCarriageReturns : List (List Char) → List (List Char)
  | [] => []
  | [last] => [last]
  | p :: rest =>
    (if p.getLast? = some '\x0d' then p.dropLast else p) :: stripCarriageReturns rest

/-- `str::lines`: split at `\n` or `\r\n`, with an optional final
terminator producing no extra line. -/
def rustLines (s : String) : List String :=
  if s.data = [] then []
  else
    let parts := stripCarriageReturns (splitNewlines s.data)
    let parts := if parts.getLast? = some [] then parts.dropLast else parts
    parts.map (fun cs => String.mk cs)

/-- Rust slice indexing `xs[start..end]`: `none` models the
out-of-contract panic (when `start > end` or `end > len`). -/
def rustSlice (xs : List String) (s e : Nat) : Option (List String) :=
  if s ≤ e ∧ e ≤ xs.length then some ((xs.drop s).take (e - s)) else none

/-- The line-range selection of `FileReadTool::execute` applied to the
file content already read.  `start.saturating_sub(1)` is `Nat`
subtraction; `none` models a panic. -/
def fileReadRange (content : String) (startLine endLine : Option Nat) : Option String :=
  match startLine, endLine with
  | some s, some e =>
    let lines := rustLines content
    let s2 := min (s - 1) lines.length
    let e2 := min e lines.length
    (rustSlice lines s2 e2).map (String.intercalate "\n")
  | some s, none =>
    let lines := rustLines content
    let s2 := min (s - 1) lines.length
    (rustSlice lines s2 lines.length).map (String.intercalate "\n")
  | _, _ => some content

/-! ## Web fetch: SSRF validation (agent-tools/src/web_fetch.rs)

IPv4 addresses are four octets, IPv6 addresses eight 16-bit segments; the
private-range predicates spell out the documented semantics of the std
`Ipv4Addr`/`Ipv6Addr` classification methods the source calls. -/

structure Ipv4 where
  a : Nat
  b : Nat
  c : Nat
  d : Nat
  deriving Repr, DecidableEq

structure Ipv6 where
  s0 : Nat
  s1 : Nat
  s2 : Nat
  s3 : Nat
  s4 : Nat
  s5 : Nat
  s6 : Nat
  s7 : Nat
  deriving Repr, DecidableEq

inductive IpAddr where
  | v4 (ip : Ipv4)
  | v6 (ip : Ipv6)
  deriving Repr, DecidableEq

def Ipv4.isLoopback (ip : Ipv4) : Bool := ip.a == 127

def Ipv4.isPrivate (ip : Ipv4) : Bool :=
  ip.a == 10 || (ip.a == 172 && 16 ≤ ip.b && ip.b ≤ 31) || (ip.a == 192 && ip.b == 168)

def Ipv4.isLinkLocal (ip : Ipv4) : Bool := ip.a == 169 && ip.b == 254

def Ipv4.isBroadcast (ip : Ipv4) : Bool :=
  ip.a == 255 && ip.b == 255 && ip.c == 255 && ip.d == 255

def Ipv4.isUnspecified (ip : Ipv4) : Bool :=
  ip.a == 0 && ip.b == 0 && ip.c == 0 && ip.d == 0

def Ipv6.isLoopback (ip : Ipv6) : Bool :=
  ip.s0 == 0 && ip.s1 == 0 && ip.s2 == 0 && ip.s3 == 0 && ip.s4 == 0 && ip.s5 == 0
    && ip.s6 == 0 && ip.s7 == 1

def Ipv6.isUnspecified (ip : Ipv6) : Bool :=
  ip.s0 == 0 && ip.s1 == 0 && ip.s2 == 0 && ip.s3 == 0 && ip.s4 == 0 && ip.s5 == 0
    && ip.s6 == 0 && ip.s7 == 0

/-- `Ipv6Addr::to_ipv4_mapped`: `::ffff:a.b.c.d`. -/
def Ipv6.toIpv4Mapped (ip : Ipv6) : Option Ipv4 :=
  if ip.s0 == 0 && ip.s1 == 0 && ip.s2 == 0 && ip.s3 == 0 && ip.s4 == 0 && ip.s5 == 0xffff
  then some { a := ip.s6 / 256, b := ip.s6 % 256, c := ip.s7 / 256, d := ip.s7 % 256 }
  else none

/-- `is_private_ip` on an `IpAddr::V4` (web_fetch.rs lines 77-84). -/
def isPrivateIpv4 (ip : Ipv4) : Bool :=
  ip.isLoopback || ip.isPrivate || ip.isLinkLocal || ip.isBroadcast || ip.isUnspecified
    || (ip.a == 100 && (ip.b &&& 0xC0) == 64)

/-- `is_private_ip` on an `IpAddr::V6` (web_fetch.rs lines 85-94). -/
def isPrivateIpv6 (ip : Ipv6) : Bool :=
  ip.isLoopback || ip.isUnspecified
    || (match ip.toIpv4Mapped with
        | some v4 => isPrivateIpv4 v4
        | none => false)
    || (ip.s0 &&& 0xfe00) == 0xfc00
    || (ip.s0 &&& 0xffc0) == 0xfe80

/-- `is_private_ip` (web_fetch.rs lines 75-96). -/
def isPrivateIp : IpAddr → Bool
  | .v4 ip => isPrivateIpv4 ip
  | .v6 ip => isPrivateIpv6 ip

structure SockAddr where
  ip : IpAddr
  port : Nat
  deriving Repr, DecidableEq

/-- `url::Host`. -/
inductive UrlHost where
  | domain (s : String)
  | ipv4 (ip : Ipv4)
  | ipv6 (ip : Ipv6)
  deriving Repr, DecidableEq

/-- Plain textual renderings for error messages (IPv6 without `::`
compression; the text is only interpolated into messages and compared
against the blocked-host names, which no address rendering can match). -/
def Ipv4.render (ip : Ipv4) : String :=
  toString ip.a ++ "." ++ toString ip.b ++ "." ++ toString ip.c ++ "." ++ toString ip.d

def Ipv6.render (ip : Ipv6) : String :=
  String.intercalate ":"
    ([ip.s0, ip.s1, ip.s2, ip.s3, ip.s4, ip.s5, ip.s6, ip.s7].map toString)

def IpAddr.render : IpAddr → String
  | .v4 ip => ip.render
  | .v6 ip => ip.render

/-- `Url::host_str()`. -/
def UrlHost.hostStr : UrlHost → String
  | .domain s => s
  | .ipv4 ip => ip.render
  | .ipv6 ip => ip.render

/-- `str::to_lowercase` restricted to ASCII letters (every hostname the
validation compares against is ASCII). -/
def lowercase (s : String) : String :=
  String.mk (s.data.map (fun c => if 'A' ≤ c ∧ c ≤ 'Z' then Char.ofNat (c.toNat + 32) else c))

/-- `str::ends_with` over the character sequences. -/
def strEndsWith (s suffix : String) : Bool :=
  suffix.data.isSuffixOf s.data

/-- The outcome of `Url::parse` on the raw URL: scheme, host, and
`port_or_known_default().unwrap_or(80)`. -/
structure ParsedUrl where
  scheme : String
  host : UrlHost
  port : Nat
  deriving Repr, DecidableEq

structure ValidatedUrl where
  url : ParsedUrl
  domain : Option String
  port : Nat
  resolvedAddrs : List SockAddr
  deriving Repr, DecidableEq

/-- `std::net::ToSocketAddrs` on `"<domain>:<port>"`, abstracted: either
the io-error text or the full list of resolved socket addresses. -/
def DnsResolver := String → Nat → Except String (List SockAddr)

/-- `validate_url_not_internal` (web_fetch.rs lines 114-231), applied to
the already-parsed URL. -/
def validateUrlNotInternal (resolve : DnsResolver) (parsed : ParsedUrl) :
    Except AgentError ValidatedUrl :=
  if parsed.scheme ≠ "http" ∧ parsed.scheme ≠ "https" then
    .error (.ToolExecution "web_fetch"
      ("Scheme '" ++ parsed.scheme ++ "' is not allowed (only http/https)"))
  else
    let host := parsed.host.hostStr
    let lowerHost := lowercase host
    if ["localhost", "metadata.google.internal"].contains lowerHost then
      .error (.ToolExecution "web_fetch"
        ("Host '" ++ host ++ "' is blocked (internal address)"))
    else if [".local", ".internal", ".localhost"].any (fun suf => strEndsWith lowerHost suf) then
      .error (.ToolExecution "web_fetch"
        ("Host '" ++ host ++ "' is blocked (internal address)"))
    else
      match parsed.host with
      | .ipv4 ip =>
        if isPrivateIpv4 ip then
          .error (.ToolExecution "web_fetch"
            ("IP address " ++ ip.render ++ " is a private/internal address"))
        else
          .ok { url := parsed, domain := none, port := parsed.port,
                resolvedAddrs := [{ ip := .v4 ip, port := parsed.port }] }
      | .ipv6 ip =>
        if isPrivateIpv6 ip then
          .error (.ToolExecution "web_fetch"
            ("IP address " ++ ip.render ++ " is a private/internal address"))
        else
          .ok { url := parsed, domain := none, port := parsed.port,
                resolvedAddrs := [{ ip := .v6 ip, port := parsed.port }] }
      | .domain d =>
        match resolve d parsed.port with
        | .error e =>
          .error (.ToolExecution "web_fetch"
            ("DNS resolution failed for '" ++ d ++ "': " ++ e))
        | .ok addrs =>
          if addrs.isEmpty then
            .error (.ToolExecution "web_fetch"
              ("DNS returned no addresses for '" ++ d ++ "'"))
          else
            match addrs.find? (fun a => isPrivateIp a.ip) with
            | some bad =>
              .error (.ToolExecution "web_fetch"
                ("Host '" ++ d ++ "' resolves to private/internal address "
                  ++ bad.ip.render))
            | none =>
              .ok { url := parsed, domain := some d, port := parsed.port,
                    resolvedAddrs := addrs }

/-- `WebFetchTool::execute` reaches `client.get(...).send()` only after
`validate_url_not_internal` returned `Ok` (web_fetch.rs lines 279-293):
`true` iff a connection is opened. -/
def webFetchOpensConnection (resolve : DnsResolver) (parsed : ParsedUrl) : Bool :=
  (validateUrlNotInternal resolve parsed).isOk

/-! ### Web fetch: body capture and truncation (web_fetch.rs lines 303-339) -/

/-- Maximum response body size to buffer (2 MB). -/
def MAX_BODY_BYTES : Nat := 2 * 1024 * 1024

/-- The streaming loop: extend the buffer chunk by chunk; once it reaches
`MAX_BODY_BYTES`, truncate to the cap, set `hit_limit` and stop. -/
def streamBodyGo : List (List Nat) → List Nat → List Nat × Bool
  | [], buf => (buf, false)
  | chunk :: rest, buf =>
    let buf' := buf ++ chunk
    if MAX_BODY_BYTES ≤ buf'.length then (buf'.take MAX_BODY_BYTES, true)
    else streamBodyGo rest buf'

def streamBody (chunks : List (List Nat)) : List Nat × Bool :=
  streamBodyGo chunks []

/-- `str::len` of the decoded body: its length in UTF-8 bytes. -/
def utf8Len (body : List Char) : Nat :=
  (body.map Char.utf8Size).sum

/-- The byte slice `&body[..n]` over the decoded characters: `some` of
the character prefix occupying exactly `n` UTF-8 bytes, `none` when `n`
is not a character boundary or exceeds the length (the Rust slice
panics there). -/
def utf8BytePrefix : List Char → Nat → Option (List Char)
  | _, 0 => some []
  | [], _ + 1 => none
  | c :: rest, n + 1 =>
    if c.utf8Size ≤ n + 1 then
      (utf8BytePrefix rest (n + 1 - c.utf8Size)).map (fun pre => c :: pre)
    else none

/-- The cap truncation applied to the lossily decoded body (web_fetch.rs
lines 321-337).  Rust measures and slices the decoded text by UTF-8 byte
index: `body.len()` is `utf8Len` and `&body[..max_length]` is
`utf8BytePrefix`, whose `none` models the panic when `max_length` falls
inside a multi-byte character. -/
def renderBody (body : List Char) (maxLength : Nat) (hitLimit : Bool) :
    Option (List Char) :=
  if maxLength < utf8Len body then
    (utf8BytePrefix body maxLength).map (fun pre =>
      pre ++ "... [truncated, ".data ++ (toString (utf8Len body)).data
        ++ " total chars".data
        ++ (if hitLimit then ", response exceeded 2MB limit".data else [])
        ++ "]".data)
  else if hitLimit then
    some (body ++ "... [truncated at 2MB limit]".data)
  else
    some body

/-- The truncation indicator common to both suffix forms. -/
def truncationIndicator : List Char := "... [truncated".data

/-! ## Provider chain (agent-core/src/provider.rs)

`Instant` is an abstract tick; the float generation parameters
(`temperature`, `top_p`) are omitted — `request_with_failover` never
reads them. -/

abbrev Instant := Nat

structure ResolvedProvider where
  name : String
  apiBase : String
  model : String
  apiKey : Option String
  priority : Nat
  timeoutSecs : Nat
  maxRetries : Nat
  roles : List String
  maxTokens : Nat
  deriving Repr, DecidableEq

inductive RequestError where
  | Transient (msg : String)
  | Permanent (msg : String)
  deriving Repr, DecidableEq

structure ProviderHealth where
  consecutiveFailures : Nat
  lastSuccess : Option Instant
  lastFailure : Option Instant
  totalRequests : Nat
  totalFailures : Nat
  deriving Repr, DecidableEq

/-- The health `HashMap<String, ProviderHealth>`, as an association list
(keys unique in the source, so value updates map over matching keys). -/
abbrev HealthMap := List (String × ProviderHealth)

def HealthMap.lookup (m : HealthMap) (name : String) : Option ProviderHealth :=
  (m.find? (fun e => e.1 == name)).map (·.2)

def HealthMap.update (m : HealthMap) (name : String) (f : ProviderHealth → ProviderHealth) :
    HealthMap :=
  m.map (fun e => if e.1 == name then (e.1, f e.2) else e)

/-- `ProviderChain::record_success` (provider.rs lines 175-183). -/
def recordSuccess (m : HealthMap) (name : String) (now : Instant) : HealthMap :=
  m.update name (fun h =>
    { h with consecutiveFailures := 0, lastSuccess := some now,
             totalRequests := h.totalRequests + 1 })

/-- `ProviderChain::record_failure` (provider.rs lines 186-195). -/
def recordFailure (m : HealthMap) (name : String) (now : Instant) : HealthMap :=
  m.update name (fun h =>
    { h with consecutiveFailures := h.consecutiveFailures + 1, lastFailure := some now,
             totalRequests := h.totalRequests + 1, totalFailures := h.totalFailures + 1 })

/-- The role filter: empty role set matches any requested role. -/
def roleMatches (p : ResolvedProvider) (role : Option String) : Bool :=
  match role with
  | some r => p.roles.isEmpty || p.roles.contains r
  | none => true

/-- The health filter: a provider missing from the map counts healthy. -/
def isHealthy (health : HealthMap) (p : ResolvedProvider) : Bool :=
  match health.lookup p.name with
  | some h => h.consecutiveFailures < p.maxRetries
  | none => true

/-- Stable insertion into a list sorted by ascending priority: the model
of Rust's stable `sort_by_key(|p| p.priority)`.  The sort is built by a
right fold, so each element is inserted before the already-placed
elements of equal priority — ties keep list order. -/
def insertByPriority (x : ResolvedProvider) : List ResolvedProvider → List ResolvedProvider
  | [] => [x]
  | y :: ys =>
    if y.priority < x.priority then y :: insertByPriority x ys else x :: y :: ys

def sortByPriority (ps : List ResolvedProvider) : List ResolvedProvider :=
  ps.foldr insertByPriority []

/-- The candidate snapshot of `request_with_failover` (provider.rs lines
213-237): role filter, health filter, stable sort by priority. -/
def selectCandidates (providers : List ResolvedProvider) (health : HealthMap)
    (role : Option String) : List ResolvedProvider :=
  sortByPriority
    ((providers.filter (fun p => roleMatches p role)).filter (fun p => isHealthy health p))

/-- The failover loop over the candidate list (provider.rs lines
243-273), threading the health map and the accumulated transient-error
texts.  The caller closure is the pure `makeRequest`; `now` stands for
the `Instant::now()` of each recording. -/
def tryCandidates {T : Type} (makeRequest : ResolvedProvider → Except RequestError T)
    (now : Instant) :
    List ResolvedProvider → HealthMap → List String → Except AgentError T × HealthMap
  | [], health, errors =>
    (.error (.Provider ("All providers failed: " ++ String.intercalate "; " errors)), health)
  | p :: rest, health, errors =>
    match makeRequest p with
    | .ok result => (.ok result, recordSuccess health p.name now)
    | .error (.Transient msg) =>
      tryCandidates makeRequest now rest (recordFailure health p.name now)
        (errors ++ [p.name ++ ": " ++ msg])
    | .error (.Permanent msg) =>
      (.error (.Provider ("Provider " ++ p.name ++ " permanent error: " ++ msg)),
        recordFailure health p.name now)

/-- `ProviderChain::request_with_failover` (provider.rs lines 204-273). -/
def requestWithFailover {T : Type} (providers : List ResolvedProvider) (health : HealthMap)
    (role : Option String) (makeRequest : ResolvedProvider → Except RequestError T)
    (now : Instant) : Except AgentError T × HealthMap :=
  let candidates := selectCandidates providers health role
  if candidates.isEmpty then (.error (.Provider "All providers exhausted"), health)
  else tryCandidates makeRequest now candidates health []

/-! ## Tool registry and agent turn loop
(agent-core/src/tool_registry.rs, agent-core/src/agent_loop.rs)

`J` abstracts `serde_json::Value`; a registered tool is its name paired
with its fallible `execute` body. -/

structure ToolCall where
  id : String
  name : String
  arguments : String
  deriving Repr, DecidableEq

structure ToolOutput where
  toolCallId : String
  content : String
  isError : Bool
  deriving Repr, DecidableEq

inductive AgentEvent where
  | ContentChunk (text : String)
  | ToolCallStart (id name : String)
  | ToolResult (output : ToolOutput)
  | Done (content : String)
  | Error (msg : String)
  deriving Repr, DecidableEq

/-- The tool map of `ToolRegistry`, as an association list. -/
def ToolRegistry (J : Type) := List (String × (J → Except AgentError String))

def ToolRegistry.get {J : Type} (reg : ToolRegistry J) (name : String) :
    Option (J → Except AgentError String) :=
  (List.find? (fun e => e.1 == name) reg).map (·.2)

/-- `ToolRegistry::execute` (tool_registry.rs lines 82-102). -/
def ToolRegistry.execute {J : Type} (reg : ToolRegistry J) (toolName toolCallId : String)
    (args : J) : ToolOutput :=
  match reg.get toolName with
  | some tool =>
    match tool args with
    | .ok content => { toolCallId := toolCallId, content := content, isError := false }
    | .error e =>
      { toolCallId := toolCallId, content := "Error: " ++ e.display, isError := true }
  | none =>
    { toolCallId := toolCallId, content := "Tool not found: " ++ toolName, isError := true }

/-- The per-turn environment of `AgentLoop::run`: the effective allowed
tool names, the registry, and `serde_json::from_str` abstracted as
`parseJson` (error carries the parse-error text). -/
structure LoopEnv (J : Type) where
  allowedTools : List String
  registry : ToolRegistry J
  parseJson : String → Except String J

/-- The handling of one requested tool call (agent_loop.rs lines
135-166): policy check, JSON-argument parse, dispatch.  The second
component records whether the tool was actually dispatched. -/
def handleToolCall {J : Type} (env : LoopEnv J) (tc : ToolCall) : ToolOutput × Bool :=
  if ¬ env.allowedTools.contains tc.name then
    ({ toolCallId := tc.id, content := "Tool not allowed: " ++ tc.name, isError := true },
      false)
  else
    match env.parseJson tc.arguments with
    | .error e =>
      ({ toolCallId := tc.id, content := "Invalid JSON arguments: " ++ e, isError := true },
        false)
    | .ok args => (env.registry.execute tc.name tc.id args, true)

/-- Maximum number of tool-calling iterations before a forced text
response (agent_loop.rs line 22). -/
def MAX_TOOL_ITERATIONS : Nat := 20

/-- One extracted `choices[0].message`: content plus the optional
tool-call list.  A response with no choices surfaces as the oracle's
`Provider` error. -/
structure ProviderResponse where
  content : String
  toolCalls : Option (List ToolCall)
  deriving Repr, DecidableEq

/-- The turn's provider oracle: what the `request_with_failover` call of
iteration `i` produced.  Indexing by the iteration number abstracts the
dependence on the accumulated wire messages. -/
def ProviderOracle := Nat → Except AgentError ProviderResponse

/-- What one loop pass emits for a batch of tool calls: a
`ToolCallStart`/`ToolResult` pair per call, in order.  Every branch of
the source (policy rejection, JSON-parse failure, dispatch) emits the
pair (agent_loop.rs lines 129, 153, 168). -/
def toolBatchEvents {J : Type} (env : LoopEnv J) (tcs : List ToolCall) : List AgentEvent :=
  tcs.flatMap (fun tc =>
    [.ToolCallStart tc.id tc.name, .ToolResult (handleToolCall env tc).1])

/-- The result of a turn: the loop's return value, the events emitted,
and the number of provider calls made. -/
structure TurnResult where
  result : Except AgentError String
  events : List AgentEvent
  providerCalls : Nat

/-- The synthetic response when the iteration cap is exceeded
(agent_loop.rs lines 196-199): a single `Done` with the fallback
message. -/
def capResult : TurnResult :=
  { result := .ok "[Agent reached maximum tool iterations]",
    events := [.Done "[Agent reached maximum tool iterations]"],
    providerCalls := 0 }

/-- The iteration loop of `AgentLoop::run` (agent_loop.rs lines 65-199),
from iteration number `iteration`.  A provider error propagates with `?`
(no `Done`); a response whose tool-call list is absent or empty is the
final text response; past the cap the synthetic fallback message is
returned.  `fuel` is a structural-recursion bound: whenever
`MAX_TOOL_ITERATIONS + 2 ≤ fuel + iteration` it is never exhausted
before the cap check fires, so the loop's behaviour is exactly the
source's. -/
def runFrom {J : Type} (env : LoopEnv J) (oracle : ProviderOracle) :
    Nat → Nat → TurnResult
  | 0, _ => capResult
  | fuel + 1, iteration =>
    if MAX_TOOL_ITERATIONS < iteration then capResult
    else
      match oracle iteration with
      | .error e => { result := .error e, events := [], providerCalls := 1 }
      | .ok resp =>
        match resp.toolCalls with
        | some tcs =>
          if tcs.isEmpty then
            { result := .ok resp.content,
              events := (if resp.content = "" then [] else [.ContentChunk resp.content])
                ++ [.Done resp.content],
              providerCalls := 1 }
          else
            let chunk := if resp.content = "" then [] else [.ContentChunk resp.content]
            let rest := runFrom env oracle fuel (iteration + 1)
            { result := rest.result,
              events := chunk ++ toolBatchEvents env tcs ++ rest.events,
              providerCalls := 1 + rest.providerCalls }
        | none =>
          { result := .ok resp.content,
            events := (if resp.content = "" then [] else [.ContentChunk resp.content])
              ++ [.Done resp.content],
            providerCalls := 1 }

/-- `AgentLoop::run`'s iteration loop starts at iteration 1. -/
def agentRun {J : Type} (env : LoopEnv J) (oracle : ProviderOracle) : TurnResult :=
  runFrom env oracle (MAX_TOOL_ITERATIONS + 1) 1

/-! ## Sandbox executor (agent-tools/src/sandbox.rs)

The host interaction of one execution — the `timeout(...)` wrapper around
spawn-and-wait — is abstracted as its observable outcome. -/

inductive SandboxMode where
  | Unsafe
  | Docker
  deriving Repr, DecidableEq

/-- Outcome of the awaited child process: the timeout elapsed, the spawn
(or wait) failed with an io-error text, or the payload completed with
captured output and `ExitStatus::code()` (which is `none` when killed by
a signal). -/
inductive ProcOutcome where
  | timeout
  | spawnErr (e : String)
  | completed (stdout stderr : String) (code : Option Int)
  deriving Repr, DecidableEq

structure ExecResult where
  stdout : String
  stderr : String
  exitCode : Int
  deriving Repr, DecidableEq

/-- `SandboxExecutor::exec_shell_unsafe` (sandbox.rs lines 44-59). -/
def execShellUnsafe : ProcOutcome → Except AgentError ExecResult
  | .timeout => .error (.Sandbox "Command timed out")
  | .spawnErr e => .error (.Sandbox ("Failed to spawn: " ++ e))
  | .completed out err code =>
    .ok { stdout := out, stderr := err, exitCode := code.getD (-1) }

/-- `SandboxExecutor::exec_python_unsafe` (sandbox.rs lines 61-76). -/
def execPythonUnsafe : ProcOutcome → Except AgentError ExecResult
  | .timeout => .error (.Sandbox "Python execution timed out")
  | .spawnErr e => .error (.Sandbox ("Failed to spawn python3: " ++ e))
  | .completed out err code =>
    .ok { stdout := out, stderr := err, exitCode := code.getD (-1) }

/-- `SandboxExecutor::docker_run` (sandbox.rs lines 124-144), used by
`exec_shell_docker`. -/
def dockerRun : ProcOutcome → Except AgentError ExecResult
  | .timeout => .error (.Sandbox "Docker execution timed out")
  | .spawnErr e => .error (.Sandbox ("Failed to run docker: " ++ e))
  | .completed out err code =>
    .ok { stdout := out, stderr := err, exitCode := code.getD (-1) }

/-- Outcome of `docker_run_stdin`'s richer interaction: spawning, the
stdin write, then the awaited wait. -/
inductive StdinProcOutcome where
  | spawnErr (e : String)
  | stdinErr (e : String)
  | timeout
  | waitErr (e : String)
  | completed (stdout stderr : String) (code : Option Int)
  deriving Repr, DecidableEq

/-- `SandboxExecutor::docker_run_stdin` (sandbox.rs lines 150-195), used
by `exec_python_docker`. -/
def dockerRunStdin : StdinProcOutcome → Except AgentError ExecResult
  | .spawnErr e => .error (.Sandbox ("Failed to spawn docker: " ++ e))
  | .stdinErr e => .error (.Sandbox ("Failed to write to docker stdin: " ++ e))
  | .timeout => .error (.Sandbox "Docker execution timed out")
  | .waitErr e => .error (.Sandbox ("Failed to run docker: " ++ e))
  | .completed out err code =>
    .ok { stdout := out, stderr := err, exitCode := code.getD (-1) }

/-- `SandboxExecutor::exec_shell` mode dispatch (sandbox.rs lines 27-32). -/
def execShell (mode : SandboxMode) (outcome : ProcOutcome) : Except AgentError ExecResult :=
  match mode with
  | .Unsafe => execShellUnsafe outcome
  | .Docker => dockerRun outcome

/-- `SandboxExecutor::exec_python` mode dispatch (sandbox.rs lines
35-40); the Docker arm pipes the code through stdin. -/
def execPython (mode : SandboxMode) (outcome : ProcOutcome ⊕ StdinProcOutcome) :
    Option (Except AgentError ExecResult) :=
  match mode, outcome with
  | .Unsafe, .inl o => some (execPythonUnsafe o)
  | .Docker, .inr o => some (dockerRunStdin o)
  | _, _ => none

/-! ## Scheduler (agent-core/src/scheduler.rs)

Timestamps are integers; a parsed cron schedule is abstracted as the
function `upcomingNext` giving `schedule.upcoming(Utc).next()` as seen at
a given instant. -/

inductive ScheduleTaskType where
  | Heartbeat
  | Prompt
  | Custom
  deriving Repr, DecidableEq

structure ScheduleConfig where
  name : String
  cron : String
  workspace : Option String
  task : ScheduleTaskType
  skill : Option String
  prompt : Option String
  enabled : Bool
  deriving Repr, DecidableEq

inductive ScheduledTask where
  | Heartbeat (scheduleName workspace skill : String)
  | Prompt (scheduleName workspace prompt : String)
  | Custom (scheduleName workspace : String)
  deriving Repr, DecidableEq

def ScheduledTask.scheduleName : ScheduledTask → String
  | .Heartbeat n _ _ => n
  | .Prompt n _ _ => n
  | .Custom n _ => n

structure ScheduleState where
  lastRun : Option Int
  nextRun : Int
  runCount : Nat
  lastError : Option String
  deriving Repr, DecidableEq

structure CronSchedule where
  upcomingNext : Int → Option Int

abbrev StateMap := List (String × ScheduleState)

def StateMap.lookup : StateMap → String → Option ScheduleState
  | [], _ => none
  | e :: rest, name => if e.1 == name then some e.2 else StateMap.lookup rest name

def StateMap.update : StateMap → String → ScheduleState → StateMap
  | [], _, _ => []
  | e :: rest, name, s =>
    (if e.1 == name then (e.1, s) else e) :: StateMap.update rest name s

/-- The task constructed for a firing schedule (scheduler.rs lines
200-223): workspace defaults to "default", a heartbeat's skill to the
empty string, a prompt's text to the fixed fallback. -/
def mkTask (config : ScheduleConfig) : ScheduledTask :=
  let workspace := config.workspace.getD "default"
  match config.task with
  | .Heartbeat => .Heartbeat config.name workspace (config.skill.getD "")
  | .Prompt =>
    .Prompt config.name workspace (config.prompt.getD "Perform your scheduled task.")
  | .Custom => .Custom config.name workspace

/-- One pass of `Scheduler::tick`'s loop body for a schedule paired with
its parsed cron (scheduler.rs lines 182-236): skip when disabled, when
the cron failed to parse, or when the schedule has no state entry; fire
when `now >= next_run`, updating the state record. -/
def tickStep (now : Int) (acc : List ScheduledTask × StateMap)
    (cp : ScheduleConfig × Option CronSchedule) : List ScheduledTask × StateMap :=
  let (tasks, st) := acc
  let (config, parsedCron) := cp
  if ¬ config.enabled then acc
  else
    match parsedCron with
    | none => acc
    | some sched =>
      match st.lookup config.name with
      | none => acc
      | some s =>
        if s.nextRun ≤ now then
          let s' : ScheduleState :=
            { lastRun := some now, runCount := s.runCount + 1, lastError := none,
              nextRun := (sched.upcomingNext now).getD s.nextRun }
          (tasks ++ [mkTask config], st.update config.name s')
        else acc

/-- `Scheduler::tick` (scheduler.rs lines 178-239).  The source indexes
`parsed[i]` alongside `schedules[i]`; the two equal-length vectors are
zipped here. -/
def tick (schedules : List ScheduleConfig) (parsed : List (Option CronSchedule))
    (state : StateMap) (now : Int) : List ScheduledTask × StateMap :=
  (schedules.zip parsed).foldl (tickStep now) ([], state)

/-! ## Observables used by the claims -/

def isStartEv : AgentEvent → Bool
  | .ToolCallStart _ _ => true
  | _ => false

def isResultEv : AgentEvent → Bool
  | .ToolResult _ => true
  | _ => false

def isDoneEv : AgentEvent → Bool
  | .Done _ => true
  | _ => false

def isToolEv (e : AgentEvent) : Bool := isStartEv e || isResultEv e

/-- How many of the fired tasks belong to the named schedule. -/
def countNamed (tasks : List ScheduledTask) (n : String) : Nat :=
  tasks.countP (fun t => t.scheduleName == n)

/-! ## Concrete fixtures for the witness instances -/

/-- A filesystem where every path exists and canonicalisation is the
identity. -/
def fsTrivial : Fs :=
  { pathExists := fun _ => true, canonicalize := fun p => .ok p }

/-- A resolver whose every answer is the loopback address. -/
def resolveLoopback : DnsResolver :=
  fun _ port => .ok [{ ip := .v4 { a := 127, b := 0, c := 0, d := 1 }, port := port }]

/-- A resolver returning the empty address list. -/
def resolveEmpty : DnsResolver :=
  fun _ _ => .ok []

def exampleUrl : ParsedUrl :=
  { scheme := "https", host := .domain "example.com", port := 443 }

def providerW : ResolvedProvider :=
  { name := "a", apiBase := "http://a.example.com/v1", model := "a-model",
    apiKey := some "a-key", priority := 1, timeoutSecs := 30, maxRetries := 2,
    roles := [], maxTokens := 4096 }

/-- A two-tool environment over trivial JSON arguments. -/
def envW : LoopEnv Unit :=
  { allowedTools := ["echo", "boom"],
    registry := [("echo", fun _ => .ok "ok"),
                 ("boom", fun _ => .error (.ToolExecution "boom" "exploded"))],
    parseJson := fun s => if s = "" then .error "EOF while parsing a value" else .ok () }

/-- An oracle that always fails (a response with no choices). -/
def oracleErr : ProviderOracle :=
  fun _ => .error (.Provider "No choices in response")

/-- The tool call the looping oracle requests. -/
def toolCallW : ToolCall :=
  { id := "t1", name := "echo", arguments := "x" }

/-- An oracle that requests one tool call on every iteration. -/
def oracleLooping : ProviderOracle :=
  fun _ => .ok { content := "", toolCalls := some [toolCallW] }

/-- An oracle that answers with a final text message at once. -/
def oracleDone : ProviderOracle :=
  fun _ => .ok { content := "4", toolCalls := none }

def scheduleW : ScheduleConfig :=
  { name := "hb", cron := "*/30 * * * *", workspace := none, task := .Prompt,
    skill := none, prompt := none, enabled := true }

def cronW : CronSchedule :=
  { upcomingNext := fun t => some (t + 1800) }

def stateW : StateMap :=
  [("hb", { lastRun := none, nextRun := 1000, runCount := 0, lastError := none })]

/-! # Theorems settling the claims -/

/-- C1: with a workspace root configured, once the path argument has
been made absolute and canonicalised (walking up to the nearest existing
ancestor for a not-yet-existing target and re-appending the tail, as
`resolveCanonical` does) and the root canonicalised, either the
canonical path lies under the canonical root and validation succeeds, or
the call fails with the `ToolExecution` message naming both paths — and
the path-confined tool (file_read, file_write, file_list) never opens
the target. -/
theorem C1_path_confinement (fs : Fs) (cwd raw root canon canonRoot : RPath)
    (hc : resolveCanonical fs cwd raw = .ok canon)
    (hr : fs.canonicalize root = .ok canonRoot) :
    (canon.startsWith canonRoot = true ∧
      validatePath fs cwd raw (some root) = .ok canon) ∨
    (canon.startsWith canonRoot = false ∧
      validatePath fs cwd raw (some root) =
        .error (.ToolExecution "file_ops"
          ("Path '" ++ canon.display ++ "' is outside the workspace root '"
            ++ canonRoot.display ++ "'")) ∧
      pathConfinedToolOpensTarget fs cwd raw (some root) = false) := by
  cases hsw : canon.startsWith canonRoot with
  | true =>
    left
    refine ⟨rfl, ?_⟩
    simp [validatePath, hc, hr, hsw]
  | false =>
    right
    have hv : validatePath fs cwd raw (some root) =
        .error (.ToolExecution "file_ops"
          ("Path '" ++ canon.display ++ "' is outside the workspace root '"
            ++ canonRoot.display ++ "'")) := by
      simp [validatePath, hc, hr, hsw]
    exact ⟨rfl, hv, by simp [pathConfinedToolOpensTarget, hv, Except.isOk, Except.toBool]⟩

/-- Witness for C1 at a concrete filesystem and path. -/
theorem C1_path_confinement_witness :
    ((RPath.mk true ["ws", "a"]).startsWith (RPath.mk true ["ws"]) = true ∧
      validatePath fsTrivial (RPath.mk true []) (RPath.mk true ["ws", "a"])
        (some (RPath.mk true ["ws"])) = .ok (RPath.mk true ["ws", "a"])) ∨
    ((RPath.mk true ["ws", "a"]).startsWith (RPath.mk true ["ws"]) = false ∧
      validatePath fsTrivial (RPath.mk true []) (RPath.mk true ["ws", "a"])
        (some (RPath.mk true ["ws"])) =
        .error (.ToolExecution "file_ops"
          ("Path '" ++ (RPath.mk true ["ws", "a"]).display
            ++ "' is outside the workspace root '"
            ++ (RPath.mk true ["ws"]).display ++ "'")) ∧
      pathConfinedToolOpensTarget fsTrivial (RPath.mk true []) (RPath.mk true ["ws", "a"])
        (some (RPath.mk true ["ws"])) = false) :=
  C1_path_confinement fsTrivial (RPath.mk true []) (RPath.mk true ["ws", "a"])
    (RPath.mk true ["ws"]) (RPath.mk true ["ws", "a"]) (RPath.mk true ["ws"])
    (by rfl) (by rfl)

/-- C10 (code bug): the line-range selection of `file_read` is not
total.  With content `"a\nb\nc"`, `start_line = 3` and `end_line = 1`
the source computes the slice `lines[2..1]`, whose bounds violate the
slice contract (`start > end`), so the Rust code panics; the model's
`none` is exactly that out-of-contract slice. -/
theorem C10_line_range_panics :
    fileReadRange "a\nb\nc" (some 3) (some 1) = none := by decide

/-- C7 counterexample: an elapsed timeout in `exec_python` under direct
mode yields `Sandbox("Python execution timed out")` — a different
message than the claimed `Sandbox("Command timed out")`. -/
theorem C7_counterexample :
    execPython SandboxMode.Unsafe (Sum.inl ProcOutcome.timeout)
      = some (.error (.Sandbox "Python execution timed out")) ∧
    ("Python execution timed out" == "Command timed out") = false := by
  exact ⟨rfl, by decide⟩

/-- C7 (amended): for both sandbox entry points in both modes, an
elapsed timeout yields a `Sandbox` error naming the timeout (the message
is "Command timed out" for direct shell, "Python execution timed out"
for direct python, "Docker execution timed out" in container mode), a
spawn failure yields a `Sandbox` error naming the failed spawn, and a
non-zero exit code of the executed payload is not an error: every
completion is returned as the successful `{stdout, stderr, exit_code}`
result, with a signal death mapped to exit code -1. -/
theorem C7_sandbox_failure_modes :
    (execShell .Unsafe .timeout = .error (.Sandbox "Command timed out")) ∧
    (∀ e, execShell .Unsafe (.spawnErr e) = .error (.Sandbox ("Failed to spawn: " ++ e))) ∧
    (execShell .Docker .timeout = .error (.Sandbox "Docker execution timed out")) ∧
    (∀ e, execShell .Docker (.spawnErr e) =
      .error (.Sandbox ("Failed to run docker: " ++ e))) ∧
    (execPython .Unsafe (.inl .timeout) =
      some (.error (.Sandbox "Python execution timed out"))) ∧
    (∀ e, execPython .Unsafe (.inl (.spawnErr e)) =
      some (.error (.Sandbox ("Failed to spawn python3: " ++ e)))) ∧
    (execPython .Docker (.inr .timeout) =
      some (.error (.Sandbox "Docker execution timed out"))) ∧
    (∀ e, execPython .Docker (.inr (.spawnErr e)) =
      some (.error (.Sandbox ("Failed to spawn docker: " ++ e)))) ∧
    (∀ mode out err code, execShell mode (.completed out err code) =
      .ok { stdout := out, stderr := err, exitCode := code.getD (-1) }) ∧
    (∀ out err code, execPython .Unsafe (.inl (.completed out err code)) =
      some (.ok { stdout := out, stderr := err, exitCode := code.getD (-1) })) ∧
    (∀ out err code, execPython .Docker (.inr (.completed out err code)) =
      some (.ok { stdout := out, stderr := err, exitCode := code.getD (-1) })) := by
  refine ⟨rfl, fun e => rfl, rfl, fun e => rfl, rfl, fun e => rfl, rfl, fun e => rfl,
    ?_, fun out err code => rfl, fun out err code => rfl⟩
  intro mode out err code
  cases mode <;> rfl

/-- C2: for a web_fetch URL whose host is a domain name that passes the
scheme and blocked-hostname checks, the host is resolved before any
network I/O; an empty resolution fails with the "DNS returned no
addresses" error, and a resolution containing any private address
(loopback, RFC1918, link-local, broadcast, unspecified, CGN
100.64.0.0/10, IPv6 unique-local, IPv6 link-local, or an IPv4-mapped
IPv6 to any of these, per `isPrivateIp`) fails with a `ToolExecution`
error — in both cases no connection is opened. -/
theorem C2_dns_validation (resolve : DnsResolver) (parsed : ParsedUrl) (d : String)
    (hscheme : parsed.scheme = "http" ∨ parsed.scheme = "https")
    (hhost : parsed.host = .domain d)
    (hb1 : (["localhost", "metadata.google.internal"].contains (lowercase d)) = false)
    (hb2 : ([".local", ".internal", ".localhost"].any
      (fun suf => strEndsWith (lowercase d) suf)) = false) :
    (resolve d parsed.port = .ok [] →
      validateUrlNotInternal resolve parsed =
        .error (.ToolExecution "web_fetch"
          ("DNS returned no addresses for '" ++ d ++ "'")) ∧
      webFetchOpensConnection resolve parsed = false) ∧
    (∀ addrs a, resolve d parsed.port = .ok addrs → a ∈ addrs → isPrivateIp a.ip = true →
      (∃ msg, validateUrlNotInternal resolve parsed =
        .error (.ToolExecution "web_fetch" msg)) ∧
      webFetchOpensConnection resolve parsed = false) := by
  have hsch : (parsed.scheme ≠ "http" ∧ parsed.scheme ≠ "https") = False := by
    rcases hscheme with h | h <;> simp [h]
  constructor
  · intro hres
    have hv : validateUrlNotInternal resolve parsed =
        .error (.ToolExecution "web_fetch"
          ("DNS returned no addresses for '" ++ d ++ "'")) := by
      simp only [validateUrlNotInternal, hsch, if_false, hhost, UrlHost.hostStr,
        hb1, hb2, Bool.false_eq_true, if_false, hres, List.isEmpty_nil, if_true]
    exact ⟨hv, by simp [webFetchOpensConnection, hv, Except.isOk, Except.toBool]⟩
  · intro addrs a hres ha hpriv
    have hne : addrs.isEmpty = false := by
      cases addrs with
      | nil => cases ha
      | cons x xs => rfl
    have hfind : (addrs.find? (fun x => isPrivateIp x.ip)).isSome := by
      rw [List.find?_isSome]
      exact ⟨a, ha, hpriv⟩
    obtain ⟨b, hb⟩ := Option.isSome_iff_exists.mp hfind
    have hv : validateUrlNotInternal resolve parsed =
        .error (.ToolExecution "web_fetch"
          ("Host '" ++ d ++ "' resolves to private/internal address " ++ b.ip.render)) := by
      simp only [validateUrlNotInternal, hsch, if_false, hhost, UrlHost.hostStr,
        hb1, hb2, Bool.false_eq_true, if_false, hres, hne, hb]
    exact ⟨⟨_, hv⟩, by simp [webFetchOpensConnection, hv, Except.isOk, Except.toBool]⟩

/-- Witness for C2: `https://example.com` with a resolver answering only
the loopback address is rejected without a connection, and one answering
the empty list fails with the DNS-no-addresses error. -/
theorem C2_dns_validation_witness :
    ((∃ msg, validateUrlNotInternal resolveLoopback exampleUrl =
        .error (.ToolExecution "web_fetch" msg)) ∧
      webFetchOpensConnection resolveLoopback exampleUrl = false) ∧
    (validateUrlNotInternal resolveEmpty exampleUrl =
        .error (.ToolExecution "web_fetch"
          ("DNS returned no addresses for '" ++ "example.com" ++ "'")) ∧
      webFetchOpensConnection resolveEmpty exampleUrl = false) := by
  constructor
  · exact (C2_dns_validation resolveLoopback exampleUrl "example.com" (Or.inr rfl) rfl
      (by decide) (by decide)).2
      [{ ip := .v4 { a := 127, b := 0, c := 0, d := 1 }, port := 443 }]
      { ip := .v4 { a := 127, b := 0, c := 0, d := 1 }, port := 443 }
      rfl (List.mem_singleton.mpr rfl) (by decide)
  · exact (C2_dns_validation resolveEmpty exampleUrl "example.com" (Or.inr rfl) rfl
      (by decide) (by decide)).1 rfl

/-! ### Provider-chain helper lemmas -/

theorem mem_insertByPriority {z x : ResolvedProvider} :
    ∀ {l : List ResolvedProvider}, z ∈ insertByPriority x l ↔ z = x ∨ z ∈ l := by
  intro l
  induction l with
  | nil => simp [insertByPriority]
  | cons y ys ih =>
    simp only [insertByPriority]
    split
    · simp only [List.mem_cons, ih]
      tauto
    · simp only [List.mem_cons]

theorem pairwise_insertByPriority {x : ResolvedProvider} {l : List ResolvedProvider}
    (hl : l.Pairwise (fun a b => a.priority ≤ b.priority)) :
    (insertByPriority x l).Pairwise (fun a b => a.priority ≤ b.priority) := by
  induction l with
  | nil => simp [insertByPriority]
  | cons y ys ih =>
    rcases List.pairwise_cons.mp hl with ⟨hy, hys⟩
    by_cases hc : y.priority < x.priority
    · simp only [insertByPriority, if_pos hc]
      rw [List.pairwise_cons]
      refine ⟨?_, ih hys⟩
      intro z hz
      rcases mem_insertByPriority.mp hz with rfl | hz'
      · exact le_of_lt hc
      · exact hy z hz'
    · simp only [insertByPriority, if_neg hc]
      rw [List.pairwise_cons]
      refine ⟨?_, hl⟩
      intro z hz
      rcases List.mem_cons.mp hz with rfl | hz'
      · omega
      · exact le_trans (by omega) (hy z hz')

theorem pairwise_sortByPriority (ps : List ResolvedProvider) :
    (sortByPriority ps).Pairwise (fun a b => a.priority ≤ b.priority) := by
  induction ps with
  | nil => simp [sortByPriority]
  | cons p rest ih => exact pairwise_insertByPriority ih

theorem mem_sortByPriority {z : ResolvedProvider} {ps : List ResolvedProvider} :
    z ∈ sortByPriority ps ↔ z ∈ ps := by
  induction ps with
  | nil => simp [sortByPriority]
  | cons p rest ih =>
    show z ∈ insertByPriority p (sortByPriority rest) ↔ _
    rw [mem_insertByPriority, ih, List.mem_cons]

theorem tryCandidates_all_transient {T : Type}
    (f : ResolvedProvider → Except RequestError T) (now : Instant)
    (msg : ResolvedProvider → String) :
    ∀ (cs : List ResolvedProvider) (h : HealthMap) (errs : List String),
      (∀ p ∈ cs, f p = .error (.Transient (msg p))) →
      (tryCandidates f now cs h errs).1 =
        .error (.Provider ("All providers failed: "
          ++ String.intercalate "; "
            (errs ++ cs.map (fun p => p.name ++ ": " ++ msg p)))) := by
  intro cs
  induction cs with
  | nil =>
    intro h errs _
    simp [tryCandidates]
  | cons p rest ih =>
    intro h errs hall
    have hp := hall p (List.mem_cons_self p rest)
    simp only [tryCandidates, hp]
    rw [ih _ _ (fun q hq => hall q (List.mem_cons_of_mem _ hq))]
    rw [List.map_cons, List.append_assoc, List.singleton_append]

/-- C3: the failover candidates are exactly the healthy role-matching
providers, tried in ascending priority order; closure success records
success and returns; a Transient error records failure and moves on to
the next candidate; a Permanent error records failure and returns a
Provider error at once; when every candidate is transient the chain
fails with the joined "All providers failed" message. -/
theorem C3_request_with_failover {T : Type} (providers : List ResolvedProvider)
    (health : HealthMap) (role : Option String)
    (f : ResolvedProvider → Except RequestError T) (now : Instant) :
    ((selectCandidates providers health role).Pairwise
        (fun a b => a.priority ≤ b.priority) ∧
      (∀ p, p ∈ selectCandidates providers health role ↔
        (p ∈ providers ∧ roleMatches p role = true ∧ isHealthy health p = true))) ∧
    (∀ p rest h errs t, f p = .ok t →
      tryCandidates f now (p :: rest) h errs = (.ok t, recordSuccess h p.name now)) ∧
    (∀ p rest h errs m, f p = .error (.Transient m) →
      tryCandidates f now (p :: rest) h errs =
        tryCandidates f now rest (recordFailure h p.name now)
          (errs ++ [p.name ++ ": " ++ m])) ∧
    (∀ p rest h errs m, f p = .error (.Permanent m) →
      tryCandidates f now (p :: rest) h errs =
        (.error (.Provider ("Provider " ++ p.name ++ " permanent error: " ++ m)),
          recordFailure h p.name now)) ∧
    (∀ msg : ResolvedProvider → String,
      (∀ p ∈ selectCandidates providers health role, f p = .error (.Transient (msg p))) →
      (selectCandidates providers health role).isEmpty = false →
      (requestWithFailover providers health role f now).1 =
        .error (.Provider ("All providers failed: " ++ String.intercalate "; "
          ((selectCandidates providers health role).map
            (fun p => p.name ++ ": " ++ msg p))))) := by
  refine ⟨⟨pairwise_sortByPriority _, ?_⟩, ?_, ?_, ?_, ?_⟩
  · intro p
    unfold selectCandidates
    rw [mem_sortByPriority, List.mem_filter, List.mem_filter]
    tauto
  · intro p rest h errs t hok
    simp [tryCandidates, hok]
  · intro p rest h errs m htr
    simp [tryCandidates, htr]
  · intro p rest h errs m hpm
    simp [tryCandidates, hpm]
  · intro msg hall hne
    unfold requestWithFailover
    rw [if_neg (by simp_all)]
    have := tryCandidates_all_transient f now msg
      (selectCandidates providers health role) health [] hall
    rw [this, List.nil_append]

/-- Witness for C3: a single always-transient provider produces the
joined failure message. -/
theorem C3_request_with_failover_witness :
    (requestWithFailover [providerW] [] none
      (fun _ => (.error (.Transient "server error") : Except RequestError String)) 0).1 =
      .error (.Provider "All providers failed: a: server error") := by
  have h := (C3_request_with_failover [providerW] [] none
    (fun _ => (.error (.Transient "server error") : Except RequestError String)) 0).2.2.2.2
    (fun _ => "server error") (fun p _ => rfl) (by decide)
  exact h.trans (congrArg Except.error (congrArg AgentError.Provider (by decide)))

/-! ### Agent-loop helper lemmas -/

/-- The only errors a turn can end with come from the provider oracle:
tool failures never surface as the loop's result. -/
theorem runFrom_error_from_oracle {J : Type} (env : LoopEnv J) (oracle : ProviderOracle) :
    ∀ fuel iteration e, (runFrom env oracle fuel iteration).result = .error e →
      ∃ i, oracle i = .error e := by
  intro fuel
  induction fuel with
  | zero =>
    intro it e h
    simp [runFrom, capResult] at h
  | succ n ih =>
    intro it e h
    simp only [runFrom] at h
    split at h
    · simp [capResult] at h
    · split at h
      · rename_i e' heq
        dsimp only at h
        injection h with h'
        exact ⟨it, by rw [heq, h']⟩
      · rename_i resp heq
        split at h
        · rename_i tcs htc
          split at h
          · dsimp only at h
            exact absurd h (by simp)
          · dsimp only at h
            exact ih (it + 1) e h
        · dsimp only at h
          exact absurd h (by simp)

/-- C4: within a turn, a tool call whose name is not in the effective
set is answered with the synthetic `is_error` output "Tool not allowed"
without dispatching; arguments that fail to parse as JSON are answered
with "Invalid JSON arguments" without dispatching; an error raised by a
dispatched tool is converted into an `is_error` output carrying the
rendered error — and a tool error never terminates the turn: the loop's
result is an error only when the provider oracle itself erred. -/
theorem C4_tool_error_handling {J : Type} (env : LoopEnv J) (tc : ToolCall) :
    (env.allowedTools.contains tc.name = false →
      handleToolCall env tc =
        ({ toolCallId := tc.id, content := "Tool not allowed: " ++ tc.name,
           isError := true }, false)) ∧
    (∀ e, env.allowedTools.contains tc.name = true →
      env.parseJson tc.arguments = .error e →
      handleToolCall env tc =
        ({ toolCallId := tc.id, content := "Invalid JSON arguments: " ++ e,
           isError := true }, false)) ∧
    (∀ args tool err, env.allowedTools.contains tc.name = true →
      env.parseJson tc.arguments = .ok args →
      env.registry.get tc.name = some tool → tool args = .error err →
      handleToolCall env tc =
        ({ toolCallId := tc.id, content := "Error: " ++ err.display, isError := true },
          true)) ∧
    (∀ (oracle : ProviderOracle) (fuel iteration : Nat) (e : AgentError),
      (runFrom env oracle fuel iteration).result = .error e →
      ∃ i, oracle i = .error e) := by
  refine ⟨?_, ?_, ?_, fun oracle fuel it e h => runFrom_error_from_oracle env oracle fuel it e h⟩
  · intro hna
    unfold handleToolCall
    rw [if_pos (show ¬ (env.allowedTools.contains tc.name = true) from by
      rw [hna]; exact Bool.false_ne_true)]
  · intro e hal hpe
    unfold handleToolCall
    rw [if_neg (not_not_intro hal), hpe]
  · intro args tool err hal hpo hget hrun
    unfold handleToolCall
    rw [if_neg (not_not_intro hal), hpo]
    dsimp only
    unfold ToolRegistry.execute
    rw [hget]
    dsimp only
    rw [hrun]

/-- Witness for C4 in the two-tool environment. -/
theorem C4_tool_error_handling_witness :
    (handleToolCall envW { id := "t2", name := "rm", arguments := "x" } =
      ({ toolCallId := "t2", content := "Tool not allowed: " ++ "rm",
         isError := true }, false)) ∧
    (handleToolCall envW { id := "t3", name := "echo", arguments := "" } =
      ({ toolCallId := "t3",
         content := "Invalid JSON arguments: " ++ "EOF while parsing a value",
         isError := true }, false)) ∧
    (handleToolCall envW { id := "t4", name := "boom", arguments := "x" } =
      ({ toolCallId := "t4",
         content := "Error: " ++ (AgentError.ToolExecution "boom" "exploded").display,
         isError := true }, true)) ∧
    (∃ i, oracleErr i = .error (.Provider "No choices in response")) := by
  refine ⟨?_, ?_, ?_, ?_⟩
  · exact (C4_tool_error_handling envW _).1 (by decide)
  · exact (C4_tool_error_handling envW _).2.1 "EOF while parsing a value" (by decide) (by rfl)
  · exact (C4_tool_error_handling envW _).2.2.1 ()
      (fun _ => .error (.ToolExecution "boom" "exploded"))
      (.ToolExecution "boom" "exploded") (by decide) (by rfl) (by rfl) (by rfl)
  · exact (C4_tool_error_handling envW { id := "t1", name := "echo", arguments := "x" }).2.2.2
      oracleErr 21 1 (.Provider "No choices in response") (by rfl)

/-! ### Event-trace helper lemmas -/

theorem handleToolCall_toolCallId {J : Type} (env : LoopEnv J) (tc : ToolCall) :
    (handleToolCall env tc).1.toolCallId = tc.id := by
  unfold handleToolCall
  split
  · rfl
  · split
    · rfl
    · unfold ToolRegistry.execute
      split
      · split <;> rfl
      · rfl

theorem toolBatchEvents_cons {J : Type} (env : LoopEnv J) (tc : ToolCall)
    (rest : List ToolCall) :
    toolBatchEvents env (tc :: rest) =
      .ToolCallStart tc.id tc.name :: .ToolResult (handleToolCall env tc).1 ::
        toolBatchEvents env rest := by
  simp [toolBatchEvents]

theorem toolBatchEvents_counts {J : Type} (env : LoopEnv J) (tcs : List ToolCall) :
    (toolBatchEvents env tcs).countP isStartEv = tcs.length ∧
    (toolBatchEvents env tcs).countP isResultEv = tcs.length ∧
    (toolBatchEvents env tcs).countP isDoneEv = 0 := by
  induction tcs with
  | nil => simp [toolBatchEvents]
  | cons tc rest ih =>
    rw [toolBatchEvents_cons]
    refine ⟨?_, ?_, ?_⟩ <;>
      simp [List.countP_cons, isStartEv, isResultEv, isDoneEv, ih.1, ih.2.1, ih.2.2]

theorem toolBatchEvents_filter {J : Type} (env : LoopEnv J) (tcs : List ToolCall) :
    (toolBatchEvents env tcs).filter isToolEv = toolBatchEvents env tcs := by
  induction tcs with
  | nil => simp [toolBatchEvents]
  | cons tc rest ih =>
    rw [toolBatchEvents_cons, List.filter_cons, List.filter_cons]
    simp [isToolEv, isStartEv, isResultEv, ih]

theorem toolBatchEvents_eq_pairs {J : Type} (env : LoopEnv J) (tcs : List ToolCall) :
    toolBatchEvents env tcs =
      (tcs.map (fun tc => (tc, (handleToolCall env tc).1))).flatMap
        (fun pr => [.ToolCallStart pr.1.id pr.1.name, .ToolResult pr.2]) := by
  induction tcs with
  | nil => simp [toolBatchEvents]
  | cons tc rest ih => rw [toolBatchEvents_cons, List.map_cons, List.flatMap_cons, ← ih]; rfl

theorem countP_chunk (c : String) (p : AgentEvent → Bool)
    (hp : ∀ s, p (AgentEvent.ContentChunk s) = false) :
    (if c = "" then ([] : List AgentEvent) else [.ContentChunk c]).countP p = 0 := by
  split <;> simp [List.countP_cons, hp]

theorem filter_chunk (c : String) :
    (if c = "" then ([] : List AgentEvent) else [.ContentChunk c]).filter isToolEv = [] := by
  split <;> simp [List.filter_cons, isToolEv, isStartEv, isResultEv]

theorem runFrom_providerCalls_le {J : Type} (env : LoopEnv J) (oracle : ProviderOracle) :
    ∀ fuel iteration, (runFrom env oracle fuel iteration).providerCalls ≤
      MAX_TOOL_ITERATIONS + 1 - iteration := by
  intro fuel
  induction fuel with
  | zero => intro it; simp [runFrom, capResult]
  | succ n ih =>
    intro it
    simp only [runFrom]
    split
    · simp only [capResult]
      omega
    · rename_i hit
      rw [Nat.not_lt] at hit
      split
      · dsimp only
        omega
      · split
        · split
          · dsimp only
            omega
          · dsimp only
            have := ih (it + 1)
            omega
        · dsimp only
          omega

theorem runFrom_at_cap {J : Type} (env : LoopEnv J) (oracle : ProviderOracle) :
    ∀ fuel iteration,
      (∀ i, iteration ≤ i → i ≤ MAX_TOOL_ITERATIONS →
        ∃ resp tcs, oracle i = .ok resp ∧ resp.toolCalls = some tcs ∧ tcs.isEmpty = false) →
      (runFrom env oracle fuel iteration).result =
        .ok "[Agent reached maximum tool iterations]" ∧
      (runFrom env oracle fuel iteration).events.countP isDoneEv = 1 ∧
      (runFrom env oracle fuel iteration).events.getLast? =
        some (.Done "[Agent reached maximum tool iterations]") := by
  intro fuel
  induction fuel with
  | zero => intro it _; simp [runFrom, capResult, List.countP_cons, isDoneEv]
  | succ n ih =>
    intro it hall
    by_cases hit : MAX_TOOL_ITERATIONS < it
    · simp only [runFrom, if_pos hit]
      simp [capResult, List.countP_cons, isDoneEv]
    · obtain ⟨resp, tcs, ho, htc, hne⟩ := hall it (le_refl it) (by omega)
      simp only [runFrom, if_neg hit, ho, htc]
      rw [if_neg (by rw [hne]; exact Bool.false_ne_true)]
      dsimp only
      obtain ⟨ihr, ihd, ihl⟩ := ih (it + 1) (fun i hi hle => hall i (by omega) hle)
      refine ⟨ihr, ?_, ?_⟩
      · rw [List.append_assoc, List.countP_append, countP_chunk _ _ (fun s => rfl),
          List.countP_append, (toolBatchEvents_counts env tcs).2.2, ihd]
      · have hne' : (runFrom env oracle n (it + 1)).events ≠ [] := by
          intro hnil
          rw [hnil] at ihd
          simp at ihd
        rw [List.append_assoc, List.getLast?_append_of_ne_nil _
          (by simp [hne']), List.getLast?_append_of_ne_nil _ hne']
        exact ihl

/-- The trace shape of every turn that ends in `Ok`: starts and results
balance, the tool events come as adjacent `ToolCallStart`/`ToolResult`
pairs in call order with matching ids, and `Done` appears exactly once,
as the last event. -/
theorem runFrom_ok_shape {J : Type} (env : LoopEnv J) (oracle : ProviderOracle) :
    ∀ fuel iteration m, (runFrom env oracle fuel iteration).result = .ok m →
      ((runFrom env oracle fuel iteration).events.countP isStartEv =
        (runFrom env oracle fuel iteration).events.countP isResultEv) ∧
      (runFrom env oracle fuel iteration).events.countP isDoneEv = 1 ∧
      (runFrom env oracle fuel iteration).events.getLast? = some (.Done m) ∧
      ∃ pairs : List (ToolCall × ToolOutput),
        (runFrom env oracle fuel iteration).events.filter isToolEv =
          pairs.flatMap (fun pr => [.ToolCallStart pr.1.id pr.1.name, .ToolResult pr.2]) ∧
        ∀ pr ∈ pairs, pr.2.toolCallId = pr.1.id := by
  intro fuel
  induction fuel with
  | zero =>
    intro it m h
    simp only [runFrom, capResult] at h ⊢
    injection h with h'
    subst h'
    refine ⟨rfl, rfl, rfl, [], ?_, by simp⟩
    simp [isToolEv, isStartEv, isResultEv]
  | succ n ih =>
    intro it m h
    by_cases hit : MAX_TOOL_ITERATIONS < it
    · simp only [runFrom, if_pos hit, capResult] at h ⊢
      injection h with h'
      subst h'
      refine ⟨rfl, rfl, rfl, [], ?_, by simp⟩
      simp [isToolEv, isStartEv, isResultEv]
    · simp only [runFrom, if_neg hit] at h ⊢
      revert h
      cases ho : oracle it with
      | error e =>
        intro h
        dsimp only at h
        simp at h
      | ok resp =>
        intro h
        dsimp only at h ⊢
        revert h
        cases htc : resp.toolCalls with
        | some tcs =>
          intro h
          dsimp only at h ⊢
          by_cases hemp : tcs.isEmpty = true
          · rw [if_pos hemp] at h ⊢
            dsimp only at h ⊢
            injection h with h'
            subst h'
            refine ⟨?_, ?_, ?_, [], ?_, by simp⟩
            · rw [List.countP_append, List.countP_append,
                countP_chunk _ _ (fun s => rfl), countP_chunk _ _ (fun s => rfl)]
              simp [List.countP_cons, isStartEv, isResultEv]
            · rw [List.countP_append, countP_chunk _ _ (fun s => rfl)]
              simp [List.countP_cons, isDoneEv]
            · exact List.getLast?_concat _
            · rw [List.filter_append, filter_chunk]
              simp [List.filter_cons, isToolEv, isStartEv, isResultEv]
          · rw [if_neg hemp] at h ⊢
            dsimp only at h ⊢
            obtain ⟨ihc, ihd, ihl, pairs, ihf, ihid⟩ := ih (it + 1) m h
            refine ⟨?_, ?_, ?_, ?_⟩
            · rw [List.append_assoc, List.countP_append,
                countP_chunk _ _ (fun s => rfl),
                List.countP_append, (toolBatchEvents_counts env tcs).1,
                List.countP_append,
                countP_chunk _ _ (fun s => rfl),
                List.countP_append, (toolBatchEvents_counts env tcs).2.1, ihc]
            · rw [List.append_assoc, List.countP_append,
                countP_chunk _ _ (fun s => rfl), List.countP_append,
                (toolBatchEvents_counts env tcs).2.2, ihd]
            · have hne' : (runFrom env oracle n (it + 1)).events ≠ [] := by
                intro hnil
                rw [hnil] at ihd
                simp at ihd
              rw [List.append_assoc, List.getLast?_append_of_ne_nil _
                (by simp [hne']), List.getLast?_append_of_ne_nil _ hne']
              exact ihl
            · refine ⟨tcs.map (fun tc => (tc, (handleToolCall env tc).1)) ++ pairs, ?_, ?_⟩
              · rw [List.append_assoc, List.filter_append, filter_chunk,
                  List.filter_append, toolBatchEvents_filter, ihf,
                  toolBatchEvents_eq_pairs, List.flatMap_append, List.nil_append]
              · intro pr hpr
                rcases List.mem_append.mp hpr with hl | hr
                · obtain ⟨tc, _, rfl⟩ := List.mem_map.mp hl
                  exact handleToolCall_toolCallId env tc
                · exact ihid pr hr
        | none =>
          intro h
          dsimp only at h ⊢
          injection h with h'
          subst h'
          refine ⟨?_, ?_, ?_, [], ?_, by simp⟩
          · rw [List.countP_append, List.countP_append,
              countP_chunk _ _ (fun s => rfl), countP_chunk _ _ (fun s => rfl)]
            simp [List.countP_cons, isStartEv, isResultEv]
          · rw [List.countP_append, countP_chunk _ _ (fun s => rfl)]
            simp [List.countP_cons, isDoneEv]
          · exact List.getLast?_concat _
          · rw [List.filter_append, filter_chunk]
            simp [List.filter_cons, isToolEv, isStartEv, isResultEv]

/-- C5: a turn makes at most `MAX_TOOL_ITERATIONS` (20) provider calls;
when every one of the first 20 responses requests tool calls, the turn
returns the synthetic "[Agent reached maximum tool iterations]" message,
emitted through exactly one `Done` event, as the last event. -/
theorem C5_iteration_cap {J : Type} (env : LoopEnv J) (oracle : ProviderOracle) :
    (agentRun env oracle).providerCalls ≤ MAX_TOOL_ITERATIONS ∧
    ((∀ i, 1 ≤ i → i ≤ MAX_TOOL_ITERATIONS →
        ∃ resp tcs, oracle i = .ok resp ∧ resp.toolCalls = some tcs ∧
          tcs.isEmpty = false) →
      (agentRun env oracle).result = .ok "[Agent reached maximum tool iterations]" ∧
      (agentRun env oracle).events.countP isDoneEv = 1 ∧
      (agentRun env oracle).events.getLast? =
        some (.Done "[Agent reached maximum tool iterations]")) := by
  constructor
  · have := runFrom_providerCalls_le env oracle (MAX_TOOL_ITERATIONS + 1) 1
    unfold agentRun
    omega
  · intro hall
    exact runFrom_at_cap env oracle (MAX_TOOL_ITERATIONS + 1) 1 hall

/-- Witness for C5: an oracle requesting a tool call on every iteration
drives the turn to the cap. -/
theorem C5_iteration_cap_witness :
    (agentRun envW oracleLooping).result = .ok "[Agent reached maximum tool iterations]" ∧
    (agentRun envW oracleLooping).events.countP isDoneEv = 1 ∧
    (agentRun envW oracleLooping).events.getLast? =
      some (.Done "[Agent reached maximum tool iterations]") :=
  (C5_iteration_cap envW oracleLooping).2
    (fun i _ _ => ⟨{ content := "", toolCalls := some [toolCallW] }, [toolCallW],
      rfl, rfl, rfl⟩)

/-- C6: for every turn that returns without a provider or schema error,
the trace balances `ToolCallStart` and `ToolResult` events, the tool
events come as adjacent start/result pairs in tool-call order with the
result carrying its start's call id, and `Done` is emitted exactly once,
as the last event (so every tool event precedes it). -/
theorem C6_event_discipline {J : Type} (env : LoopEnv J) (oracle : ProviderOracle)
    (m : String) (h : (agentRun env oracle).result = .ok m) :
    ((agentRun env oracle).events.countP isStartEv =
      (agentRun env oracle).events.countP isResultEv) ∧
    (agentRun env oracle).events.countP isDoneEv = 1 ∧
    (agentRun env oracle).events.getLast? = some (.Done m) ∧
    ∃ pairs : List (ToolCall × ToolOutput),
      (agentRun env oracle).events.filter isToolEv =
        pairs.flatMap (fun pr => [.ToolCallStart pr.1.id pr.1.name, .ToolResult pr.2]) ∧
      ∀ pr ∈ pairs, pr.2.toolCallId = pr.1.id :=
  runFrom_ok_shape env oracle (MAX_TOOL_ITERATIONS + 1) 1 m h

/-! ### Body-capture helper lemma -/

theorem streamBodyGo_spec :
    ∀ (chunks : List (List Nat)) (buf : List Nat), buf.length < MAX_BODY_BYTES →
      streamBodyGo chunks buf =
        ((buf ++ chunks.flatten).take MAX_BODY_BYTES,
          decide (MAX_BODY_BYTES ≤ (buf ++ chunks.flatten).length)) := by
  intro chunks
  induction chunks with
  | nil =>
    intro buf hb
    simp only [streamBodyGo, List.flatten_nil, List.append_nil]
    rw [List.take_of_length_le (le_of_lt hb)]
    have hn : ¬ MAX_BODY_BYTES ≤ buf.length := by omega
    simp [hn]
  | cons c rest ih =>
    intro buf hb
    simp only [streamBodyGo]
    by_cases hc : MAX_BODY_BYTES ≤ (buf ++ c).length
    · rw [if_pos hc]
      have h1 : buf ++ (c :: rest).flatten = (buf ++ c) ++ rest.flatten := by
        simp [List.flatten_cons, List.append_assoc]
      rw [h1]
      have hh : MAX_BODY_BYTES ≤ ((buf ++ c) ++ rest.flatten).length := by
        rw [List.length_append]
        omega
      simp only [Prod.mk.injEq]
      refine ⟨?_, ?_⟩
      · conv_rhs => rw [List.take_append_eq_append_take]
        rw [Nat.sub_eq_zero_of_le hc, List.take_zero, List.append_nil]
      · exact (decide_eq_true hh).symm
    · rw [if_neg hc]
      rw [ih (buf ++ c) (by omega)]
      have h1 : (buf ++ c) ++ rest.flatten = buf ++ (c :: rest).flatten := by
        simp [List.flatten_cons, List.append_assoc]
      rw [h1]

/-- Witness for C6 on a one-shot text response. -/
theorem C6_event_discipline_witness :
    ((agentRun envW oracleDone).events.countP isStartEv =
      (agentRun envW oracleDone).events.countP isResultEv) ∧
    (agentRun envW oracleDone).events.countP isDoneEv = 1 ∧
    (agentRun envW oracleDone).events.getLast? = some (.Done "4") ∧
    ∃ pairs : List (ToolCall × ToolOutput),
      (agentRun envW oracleDone).events.filter isToolEv =
        pairs.flatMap (fun pr => [.ToolCallStart pr.1.id pr.1.name, .ToolResult pr.2]) ∧
      ∀ pr ∈ pairs, pr.2.toolCallId = pr.1.id :=
  C6_event_discipline envW oracleDone "4" (by rfl)

/-- C8 counterexample: a decoded body that itself contains the
truncation indicator defeats the claimed "indicator present iff
truncation occurred" — here nothing is truncated (the byte cap 100
exceeds the body's UTF-8 length and the 2 MiB limit was not hit), yet
the returned text contains the indicator. -/
theorem C8_counterexample :
    renderBody "... [truncated".data 100 false = some ("... [truncated".data) ∧
    (truncationIndicator <:+: "... [truncated".data) ∧
    utf8Len ("... [truncated".data) ≤ 100 :=
  ⟨by decide, ⟨[], [], by decide⟩, by decide⟩

/-- C8 (amended): the streamed bytes are truncated at exactly the 2 MiB
byte cap and the limit flag is set iff the full stream reaches the cap;
the decoded text is further cut at `max_length` measured in UTF-8 bytes,
keeping exactly the `max_length`-byte character prefix (the slice
panics when the index falls inside a multi-byte character); and —
provided the decoded body does not itself contain the indicator
substring and the slice succeeds — the indicator is present in the
returned text iff the byte cap `max_length` was exceeded or the 2 MiB
limit was hit. -/
theorem C8_body_truncation :
    (∀ chunks : List (List Nat), streamBody chunks =
      ((chunks.flatten).take MAX_BODY_BYTES,
        decide (MAX_BODY_BYTES ≤ chunks.flatten.length))) ∧
    (∀ (body : List Char) (maxLength : Nat) (hit : Bool) (out : List Char),
      renderBody body maxLength hit = some out →
      (utf8Len body ≤ maxLength → body <+: out) ∧
      (∀ pre, maxLength < utf8Len body → utf8BytePrefix body maxLength = some pre →
        pre <+: out)) ∧
    (∀ (body : List Char) (maxLength : Nat) (hit : Bool),
      maxLength < utf8Len body → utf8BytePrefix body maxLength = none →
      renderBody body maxLength hit = none) ∧
    (∀ (body : List Char) (maxLength : Nat) (hit : Bool) (out : List Char),
      ¬ truncationIndicator <:+: body →
      renderBody body maxLength hit = some out →
      (truncationIndicator <:+: out ↔ (maxLength < utf8Len body ∨ hit = true))) := by
  refine ⟨?_, ?_, ?_, ?_⟩
  · intro chunks
    have h := streamBodyGo_spec chunks [] (by decide)
    simpa [streamBody] using h
  · intro body maxLength hit out hsome
    unfold renderBody at hsome
    by_cases h1 : maxLength < utf8Len body
    · rw [if_pos h1] at hsome
      obtain ⟨pre', hpre', hout⟩ := Option.map_eq_some'.mp hsome
      refine ⟨fun hle => absurd h1 (by omega), ?_⟩
      intro pre _ hpre
      rw [hpre] at hpre'
      injection hpre' with hpe
      subst hpe
      rw [← hout]
      simp only [List.append_assoc]
      exact List.prefix_append _ _
    · rw [if_neg h1] at hsome
      by_cases h2 : hit = true
      · rw [if_pos h2] at hsome
        injection hsome with hout
        exact ⟨fun _ => hout ▸ List.prefix_append _ _, fun pre hlt _ => absurd hlt h1⟩
      · rw [if_neg h2] at hsome
        injection hsome with hout
        exact ⟨fun _ => hout ▸ List.prefix_refl _, fun pre hlt _ => absurd hlt h1⟩
  · intro body maxLength hit h1 hnone
    unfold renderBody
    rw [if_pos h1, hnone]
    rfl
  · intro body maxLength hit out hnb hsome
    unfold renderBody at hsome
    by_cases h1 : maxLength < utf8Len body
    · rw [if_pos h1] at hsome
      obtain ⟨pre, hpre, hout⟩ := Option.map_eq_some'.mp hsome
      refine ⟨fun _ => Or.inl h1, fun _ => ?_⟩
      rw [← hout,
        show "... [truncated, ".data = truncationIndicator ++ ", ".data from by decide]
      exact ⟨pre, ", ".data ++ ((toString (utf8Len body)).data ++ (" total chars".data
        ++ ((if hit = true then ", response exceeded 2MB limit".data else [])
          ++ "]".data))),
        by simp [List.append_assoc]⟩
    · rw [if_neg h1] at hsome
      by_cases h2 : hit = true
      · rw [if_pos h2] at hsome
        injection hsome with hout
        refine ⟨fun _ => Or.inr h2, fun _ => ?_⟩
        rw [← hout,
          show "... [truncated at 2MB limit]".data =
            truncationIndicator ++ " at 2MB limit]".data from by decide]
        exact ⟨body, " at 2MB limit]".data, by simp [List.append_assoc]⟩
      · rw [if_neg h2] at hsome
        injection hsome with hout
        constructor
        · intro hin
          rw [← hout] at hin
          exact absurd hin hnb
        · intro htr
          rcases htr with h | h
          · exact absurd h h1
          · exact absurd h h2

/-- Witness for C8: slicing a two-byte character at byte 1 is the panic
path, and a short ASCII body under the cap satisfies the equivalence. -/
theorem C8_body_truncation_witness :
    renderBody "é".data 1 false = none ∧
    (truncationIndicator <:+:
        ("hel".data ++ "... [truncated, ".data ++ "5".data ++ " total chars".data
          ++ [] ++ "]".data) ↔
      (3 < utf8Len "hello".data ∨ false = true)) := by
  constructor
  · exact (C8_body_truncation).2.2.1 "é".data 1 false (by decide) (by decide)
  · exact (C8_body_truncation).2.2.2 "hello".data 3 false
      ("hel".data ++ "... [truncated, ".data ++ "5".data ++ " total chars".data
        ++ [] ++ "]".data)
      (fun hin => absurd hin.length_le (by decide)) (by decide)

/-! ### Scheduler helper lemmas -/

theorem lookup_update_self (m : StateMap) (n : String) (v : ScheduleState) :
    (m.update n v).lookup n = (m.lookup n).map (fun _ => v) := by
  induction m with
  | nil => rfl
  | cons e rest ih =>
    unfold StateMap.update StateMap.lookup
    by_cases he : (e.1 == n) = true
    · simp [he]
    · simp [he, ih]

theorem lookup_update_ne (m : StateMap) (n n' : String) (v : ScheduleState)
    (h : n ≠ n') : (m.update n v).lookup n' = m.lookup n' := by
  induction m with
  | nil => rfl
  | cons e rest ih =>
    unfold StateMap.update StateMap.lookup
    by_cases he : (e.1 == n) = true
    · have he' : (e.1 == n') = false := by
        rw [beq_iff_eq] at he
        rw [beq_eq_false_iff_ne, he]
        exact h
      simp [he, he', ih]
    · simp [he, ih]

theorem mkTask_scheduleName (config : ScheduleConfig) :
    (mkTask config).scheduleName = config.name := by
  unfold mkTask
  cases config.task <;> rfl

theorem countNamed_append_named (tasks : List ScheduledTask) (t : ScheduledTask)
    (n : String) :
    countNamed (tasks ++ [t]) n =
      countNamed tasks n + (if t.scheduleName == n then 1 else 0) := by
  unfold countNamed
  rw [List.countP_append]
  simp [List.countP_cons]

/-- Processing schedules whose names avoid `n` leaves the state at `n`
and the tasks named `n` untouched. -/
theorem tickFold_untouched (now : Int) (n : String) :
    ∀ (l : List (ScheduleConfig × Option CronSchedule))
      (acc : List ScheduledTask × StateMap),
      (∀ cp ∈ l, cp.1.name ≠ n) →
      (l.foldl (tickStep now) acc).2.lookup n = acc.2.lookup n ∧
      countNamed (l.foldl (tickStep now) acc).1 n = countNamed acc.1 n := by
  intro l
  induction l with
  | nil => intro acc _; exact ⟨rfl, rfl⟩
  | cons cp rest ih =>
    intro acc hall
    rw [List.foldl_cons]
    have hcp : cp.1.name ≠ n := hall cp (List.mem_cons_self cp rest)
    have hstep : (tickStep now acc cp).2.lookup n = acc.2.lookup n ∧
        countNamed (tickStep now acc cp).1 n = countNamed acc.1 n := by
      unfold tickStep
      dsimp only
      split
      · exact ⟨rfl, rfl⟩
      · split
        · exact ⟨rfl, rfl⟩
        · split
          · exact ⟨rfl, rfl⟩
          · split
            · refine ⟨?_, ?_⟩
              · exact lookup_update_ne _ _ _ _ hcp
              · rw [countNamed_append_named, mkTask_scheduleName,
                  if_neg (by simp [hcp]), Nat.add_zero]
            · exact ⟨rfl, rfl⟩
    obtain ⟨s1, s2⟩ := hstep
    obtain ⟨r1, r2⟩ := ih (tickStep now acc cp)
      (fun q hq => hall q (List.mem_cons_of_mem _ hq))
    exact ⟨r1.trans s1, r2.trans s2⟩

/-- A fold over disabled schedules is the identity. -/
theorem tickFold_disabled (now : Int) :
    ∀ (l : List (ScheduleConfig × Option CronSchedule))
      (acc : List ScheduledTask × StateMap),
      (∀ cp ∈ l, cp.1.enabled = false) → l.foldl (tickStep now) acc = acc := by
  intro l
  induction l with
  | nil => intro acc _; rfl
  | cons cp rest ih =>
    intro acc hall
    rw [List.foldl_cons]
    have hcp : cp.1.enabled = false := hall cp (List.mem_cons_self cp rest)
    have hstep : tickStep now acc cp = acc := by
      unfold tickStep
      dsimp only
      rw [if_pos (by rw [hcp]; exact Bool.false_ne_true)]
    rw [hstep]
    exact ih acc (fun q hq => hall q (List.mem_cons_of_mem _ hq))

/-- A due schedule fires: one task appended, state record replaced. -/
theorem tickStep_fires (now : Int) (acc : List ScheduledTask × StateMap)
    (config : ScheduleConfig) (sched : CronSchedule) (s : ScheduleState) (nxt : Int)
    (henb : config.enabled = true)
    (hlk : acc.2.lookup config.name = some s) (hdue : s.nextRun ≤ now)
    (hup : sched.upcomingNext now = some nxt) :
    tickStep now acc (config, some sched) =
      (acc.1 ++ [mkTask config],
        acc.2.update config.name
          { lastRun := some now, nextRun := nxt, runCount := s.runCount + 1,
            lastError := none }) := by
  unfold tickStep
  dsimp only
  rw [if_neg (by rw [henb]; simp), hlk]
  dsimp only
  rw [if_pos hdue, hup]
  rfl

/-- A disabled, unparsed or not-yet-due schedule is skipped. -/
theorem tickStep_skips (now : Int) (acc : List ScheduledTask × StateMap)
    (config : ScheduleConfig) (parsedCron : Option CronSchedule)
    (h : config.enabled = false ∨ parsedCron = none ∨
      (∀ s, acc.2.lookup config.name = some s → now < s.nextRun)) :
    tickStep now acc (config, parsedCron) = acc := by
  unfold tickStep
  dsimp only
  rcases h with hdis | hpcn | hndue
  · rw [if_pos (by rw [hdis]; exact Bool.false_ne_true)]
  · by_cases henb : ¬ config.enabled = true
    · rw [if_pos henb]
    · rw [if_neg henb, hpcn]
  · by_cases henb : ¬ config.enabled = true
    · rw [if_pos henb]
    · rw [if_neg henb]
      cases hpc : parsedCron with
      | none => rfl
      | some sched =>
        dsimp only
        cases hlk : acc.2.lookup config.name with
        | none => rfl
        | some s =>
          have hlt : now < s.nextRun := hndue s hlk
          dsimp only
          rw [if_neg (show ¬ s.nextRun ≤ now by omega)]

/-- C9: on a tick, an enabled schedule with a parsed cron whose state is
due (`now ≥ next_run`) fires exactly one task and its state becomes
`{last_run = now, last_error = none, run_count + 1, next_run = the next
upcoming cron time}`; a schedule that is disabled, unparsed or not yet
due fires nothing and keeps its state; and a tick over only disabled
schedules returns the empty task list with the state untouched.  The
schedule under scrutiny is singled out by the decomposition of the
zipped config/cron list, with schedule names assumed distinct (the
scheduler state is keyed by name). -/
theorem C9_scheduler_tick (schedules : List ScheduleConfig)
    (parsed : List (Option CronSchedule)) (state : StateMap) (now : Int)
    (l1 l2 : List (ScheduleConfig × Option CronSchedule))
    (config : ScheduleConfig) (parsedCron : Option CronSchedule)
    (hlen : schedules.length = parsed.length)
    (hnd : (schedules.map (fun c => c.name)).Nodup)
    (hdecomp : schedules.zip parsed = l1 ++ (config, parsedCron) :: l2) :
    (∀ sched s nxt, config.enabled = true → parsedCron = some sched →
        state.lookup config.name = some s → s.nextRun ≤ now →
        sched.upcomingNext now = some nxt →
        countNamed (tick schedules parsed state now).1 config.name = 1 ∧
        (tick schedules parsed state now).2.lookup config.name =
          some { lastRun := some now, nextRun := nxt, runCount := s.runCount + 1,
                 lastError := none }) ∧
    ((config.enabled = false ∨ parsedCron = none ∨
        (∀ s, state.lookup config.name = some s → now < s.nextRun)) →
      countNamed (tick schedules parsed state now).1 config.name = 0 ∧
      (tick schedules parsed state now).2.lookup config.name =
        state.lookup config.name) ∧
    ((∀ c ∈ schedules, c.enabled = false) →
      tick schedules parsed state now = ([], state)) := by
  have hmap : (schedules.zip parsed).map (fun cp => cp.1.name) =
      schedules.map (fun c => c.name) := by
    rw [show (fun cp : ScheduleConfig × Option CronSchedule => cp.1.name) =
        (fun c : ScheduleConfig => c.name) ∘ Prod.fst from rfl, ← List.map_map,
      List.map_fst_zip _ _ (le_of_eq hlen)]
  have hnd2 : ((l1 ++ (config, parsedCron) :: l2).map (fun cp => cp.1.name)).Nodup := by
    rw [← hdecomp, hmap]
    exact hnd
  rw [List.map_append, List.map_cons] at hnd2
  have hnodupApp := List.nodup_append.mp hnd2
  have hn1 : ∀ cp ∈ l1, cp.1.name ≠ config.name := by
    intro cp hcp heq
    exact hnodupApp.2.2 (by rw [← heq]; exact List.mem_map_of_mem _ hcp)
      (List.mem_cons_self _ _)
  have hn2 : ∀ cp ∈ l2, cp.1.name ≠ config.name := by
    intro cp hcp heq
    exact (List.nodup_cons.mp hnodupApp.2.1).1
      (by rw [← heq]; exact List.mem_map_of_mem _ hcp)
  obtain ⟨u1, u2⟩ := tickFold_untouched now config.name l1 ([], state) hn1
  refine ⟨?_, ?_, ?_⟩
  · intro sched s nxt henb hpc hlk hdue hup
    unfold tick
    rw [hdecomp, List.foldl_append, List.foldl_cons, hpc,
      tickStep_fires now _ config sched s nxt henb (u1.trans hlk) hdue hup]
    obtain ⟨v1, v2⟩ := tickFold_untouched now config.name l2 _ hn2
    constructor
    · rw [v2, countNamed_append_named, mkTask_scheduleName, if_pos (by simp), u2]
      rfl
    · rw [v1]
      dsimp only
      rw [lookup_update_self,
        show (List.foldl (tickStep now) ([], state) l1).2.lookup config.name =
          some s from u1.trans hlk]
      rfl
  · intro hnot
    unfold tick
    rw [hdecomp, List.foldl_append, List.foldl_cons,
      tickStep_skips now _ config parsedCron (by
        rcases hnot with hdis | hpcn | hndue
        · exact Or.inl hdis
        · exact Or.inr (Or.inl hpcn)
        · exact Or.inr (Or.inr (fun s hs => hndue s (u1.symm.trans hs))))]
    obtain ⟨v1, v2⟩ := tickFold_untouched now config.name l2 _ hn2
    exact ⟨(v2.trans u2).trans rfl, v1.trans u1⟩
  · intro hdis
    unfold tick
    have hall : ∀ cp ∈ schedules.zip parsed, cp.1.enabled = false := by
      intro cp hcp
      obtain ⟨a, b⟩ := cp
      exact hdis a (List.of_mem_zip hcp).1
    exact tickFold_disabled now _ _ hall

/-- Witness for C9: a single due schedule fires once and its state
advances. -/
theorem C9_scheduler_tick_witness :
    countNamed (tick [scheduleW] [some cronW] stateW 2000).1 "hb" = 1 ∧
    (tick [scheduleW] [some cronW] stateW 2000).2.lookup "hb" =
      some { lastRun := some 2000, nextRun := 3800, runCount := 0 + 1,
             lastError := none } :=
  (C9_scheduler_tick [scheduleW] [some cronW] stateW 2000 [] []
      scheduleW (some cronW) rfl (by decide) rfl).1
    cronW { lastRun := none, nextRun := 1000, runCount := 0, lastError := none } 3800
    rfl rfl rfl (by decide) rfl

end AgentShell
